import Mathlib

/-
Shallow embedding of src/server.js of industry-intelligence-backend.

Modelling conventions:
  - SQL tables are lists of rows (one structure per table); SQL DECIMAL values
    and JavaScript numbers are modelled as rationals; nullable columns are
    Option-valued.
  - The Stripe library call stripe.webhooks.constructEvent is the external
    signature check; its outcome is passed in as an Except value (error msg for
    a signature failure, ok event for a verified event), exactly as the route
    handler consumes it.
  - A fallible pool.query call inside a try/catch whose catch only logs is
    modelled by a Bool argument queryOk: when false the statement has no
    effect on the table, and the surrounding handler swallows the failure.
  - JavaScript Array.prototype.sort is stable (ES2019); it is modelled as a
    stable insertion sort where element a is placed after b exactly when the
    comparator result cmp(a,b) is a number > 0 (a NaN comparator result, which
    arises from arithmetic on undefined, is not > 0, hence keeps input order).
  - A JavaScript runtime error (TypeError on accessing .name of undefined,
    which generateComparisonInsights hits on an empty row set) is modelled by
    an Option-valued result, none standing for the thrown error.
-/

/- ===== users table and the Stripe webhook (server.js lines 56-114) ===== -/

/--
Row of the users table (server.js createTables, lines 330-341); only the four
columns written by the webhook handlers are modelled (id/email/timestamps are
never read or written by the handlers).
-/
structure UserRow where
  stripe_customer_id : String
  subscription_id : String
  plan_id : String
  status : String
deriving DecidableEq

/-- Payload object of a Stripe event (event.data.object, lines 71 and 76). -/
structure SessionObject where
  customer : String
  subscription : String
  planId : String
  id : String
deriving DecidableEq

/-- A verified Stripe event: its type string and its payload object. -/
structure StripeEvent where
  type : String
  object : SessionObject
deriving DecidableEq

/--
Semantics of the SQL in handleSuccessfulPayment (lines 92-95):
INSERT INTO users ... ON CONFLICT (stripe_customer_id) DO UPDATE SET
subscription_id, plan_id, status.  With the UNIQUE constraint on
stripe_customer_id, a conflicting row is updated in place, otherwise a new
row is appended.
-/
def usersUpsert (customer subscriptionId planId status : String)
    (db : List UserRow) : List UserRow :=
  if db.any (fun r => r.stripe_customer_id == customer) then
    db.map (fun r =>
      if r.stripe_customer_id == customer then
        { r with subscription_id := subscriptionId, plan_id := planId, status := status }
      else r)
  else
    db ++ [{ stripe_customer_id := customer, subscription_id := subscriptionId,
             plan_id := planId, status := status }]

/--
handleSuccessfulPayment (server.js lines 87-101): runs the upsert; a database
failure (queryOk = false) is caught and logged, leaving the table unchanged.
-/
def handleSuccessfulPayment (queryOk : Bool) (session : SessionObject)
    (db : List UserRow) : List UserRow :=
  if queryOk then
    usersUpsert session.customer session.subscription session.planId "active" db
  else db

/--
Semantics of the SQL in handleSubscriptionCancellation (lines 105-108):
UPDATE users SET status = 'cancelled' WHERE subscription_id = $2.
-/
def usersCancel (subscriptionId : String) (db : List UserRow) : List UserRow :=
  db.map (fun r =>
    if r.subscription_id == subscriptionId then { r with status := "cancelled" } else r)

/--
handleSubscriptionCancellation (server.js lines 103-114): runs the update; a
database failure is caught and logged, leaving the table unchanged.
-/
def handleSubscriptionCancellation (queryOk : Bool) (subscription : SessionObject)
    (db : List UserRow) : List UserRow :=
  if queryOk then usersCancel subscription.id db else db

/-- Response body of the webhook route: res.json with received true, or the 400 text body. -/
inductive WebhookBody where
  | jsonReceivedTrue : WebhookBody
  | text : String → WebhookBody
deriving DecidableEq

/-- HTTP outcome of the webhook route together with the users table after handling. -/
structure WebhookResult where
  status : Nat
  body : WebhookBody
  db : List UserRow
deriving DecidableEq

/--
POST /api/stripe-webhook (server.js lines 57-85).  constructEventResult is the
outcome of stripe.webhooks.constructEvent on the raw body: an error yields 400
with the "Webhook Error: <msg>" text and no further processing; a verified
event is dispatched on its type (default arm only logs) and the route answers
200 with received true regardless of the handler outcome.
-/
def stripeWebhook (constructEventResult : Except String StripeEvent) (queryOk : Bool)
    (db : List UserRow) : WebhookResult :=
  match constructEventResult with
  | Except.error msg =>
      { status := 400, body := WebhookBody.text ("Webhook Error: " ++ msg), db := db }
  | Except.ok event =>
      let db' :=
        if event.type == "checkout.session.completed" then
          handleSuccessfulPayment queryOk event.object db
        else if event.type == "customer.subscription.deleted" then
          handleSubscriptionCancellation queryOk event.object db
        else db
      { status := 200, body := WebhookBody.jsonReceivedTrue, db := db' }

/--
Claim C1: a webhook request whose signature does not verify is answered with
HTTP 400 and the users table is not mutated, regardless of the payload (which
only reaches the handler through the verification outcome).
-/
theorem C1_invalid_signature_400_no_mutation (msg : String) (queryOk : Bool)
    (db : List UserRow) :
    stripeWebhook (Except.error msg) queryOk db =
      { status := 400, body := WebhookBody.text ("Webhook Error: " ++ msg), db := db } := rfl

/--
Claim C2: a webhook request whose signature verifies is answered with HTTP 200
and body received-true, for every event type and even when the persistence
operation fails (queryOk = false): handler errors never change the response.
-/
theorem C2_valid_signature_always_200 (event : StripeEvent) (queryOk : Bool)
    (db : List UserRow) :
    (stripeWebhook (Except.ok event) queryOk db).status = 200 ∧
    (stripeWebhook (Except.ok event) queryOk db).body = WebhookBody.jsonReceivedTrue :=
  ⟨rfl, rfl⟩

/--
Claim C3: processing checkout.session.completed for a customer id absent from
the users table creates exactly one row for it, with status active; processing
a second such event for the same customer updates that row in place (still
exactly one row, same table length) leaving the latest subscription and plan.
-/
theorem C3_checkout_completed_upsert (db : List UserRow)
    (cus sub1 plan1 sub2 plan2 : String)
    (h : db.countP (fun r => r.stripe_customer_id == cus) = 0) :
    (handleSuccessfulPayment true ⟨cus, sub1, plan1, ""⟩ db).countP
        (fun r => r.stripe_customer_id == cus) = 1 ∧
    (∀ r ∈ handleSuccessfulPayment true ⟨cus, sub1, plan1, ""⟩ db,
        r.stripe_customer_id = cus →
          r.status = "active" ∧ r.subscription_id = sub1 ∧ r.plan_id = plan1) ∧
    (handleSuccessfulPayment true ⟨cus, sub2, plan2, ""⟩
        (handleSuccessfulPayment true ⟨cus, sub1, plan1, ""⟩ db)).countP
        (fun r => r.stripe_customer_id == cus) = 1 ∧
    (∀ r ∈ handleSuccessfulPayment true ⟨cus, sub2, plan2, ""⟩
        (handleSuccessfulPayment true ⟨cus, sub1, plan1, ""⟩ db),
        r.stripe_customer_id = cus →
          r.status = "active" ∧ r.subscription_id = sub2 ∧ r.plan_id = plan2) ∧
    (handleSuccessfulPayment true ⟨cus, sub2, plan2, ""⟩
        (handleSuccessfulPayment true ⟨cus, sub1, plan1, ""⟩ db)).length =
      (handleSuccessfulPayment true ⟨cus, sub1, plan1, ""⟩ db).length := by
  have hall : ∀ r ∈ db, ¬(r.stripe_customer_id == cus) = true := List.countP_eq_zero.mp h
  have hany : db.any (fun r => r.stripe_customer_id == cus) = false := by
    rw [List.any_eq_false]; exact hall
  set new1 : UserRow := ⟨cus, sub1, plan1, "active"⟩ with hnew1
  have hdb1 : handleSuccessfulPayment true ⟨cus, sub1, plan1, ""⟩ db = db ++ [new1] := by
    simp [handleSuccessfulPayment, usersUpsert, hany, hnew1]
  have hc1 : (db ++ [new1]).countP (fun r => r.stripe_customer_id == cus) = 1 := by
    rw [List.countP_append, h, List.countP_cons]
    simp [hnew1]
  have hmem1 : ∀ r ∈ db ++ [new1], r.stripe_customer_id = cus →
      r.status = "active" ∧ r.subscription_id = sub1 ∧ r.plan_id = plan1 := by
    intro r hr hrc
    rcases List.mem_append.mp hr with hin | hin
    · exact absurd (by simp [hrc]) (hall r hin)
    · rcases List.mem_singleton.mp hin with rfl
      exact ⟨rfl, rfl, rfl⟩
  have hany2 : (db ++ [new1]).any (fun r => r.stripe_customer_id == cus) = true := by
    rw [List.any_eq_true]
    exact ⟨new1, by simp [hnew1]⟩
  have hdb2 : handleSuccessfulPayment true ⟨cus, sub2, plan2, ""⟩ (db ++ [new1]) =
      (db ++ [new1]).map (fun r =>
        if r.stripe_customer_id == cus then
          { r with subscription_id := sub2, plan_id := plan2, status := "active" }
        else r) := by
    simp only [handleSuccessfulPayment, usersUpsert, hany2, if_true]
  have hpres : ∀ r : UserRow,
      ((fun r : UserRow =>
        if r.stripe_customer_id == cus then
          { r with subscription_id := sub2, plan_id := plan2, status := "active" }
        else r) r).stripe_customer_id = r.stripe_customer_id := by
    intro r
    by_cases hb : (r.stripe_customer_id == cus) = true
    · simp [hb]
    · simp [hb]
  have hc2 : ((db ++ [new1]).map (fun r =>
      if r.stripe_customer_id == cus then
        { r with subscription_id := sub2, plan_id := plan2, status := "active" }
      else r)).countP (fun r => r.stripe_customer_id == cus) = 1 := by
    rw [List.countP_map]
    have : ((fun r : UserRow => r.stripe_customer_id == cus) ∘ (fun r : UserRow =>
        if r.stripe_customer_id == cus then
          { r with subscription_id := sub2, plan_id := plan2, status := "active" }
        else r)) = (fun r : UserRow => r.stripe_customer_id == cus) := by
      funext r
      by_cases hb : r.stripe_customer_id = cus
      · simp [Function.comp, hb]
      · simp [Function.comp, hb]
    rw [this, hc1]
  have hmem2 : ∀ r ∈ (db ++ [new1]).map (fun r =>
      if r.stripe_customer_id == cus then
        { r with subscription_id := sub2, plan_id := plan2, status := "active" }
      else r), r.stripe_customer_id = cus →
        r.status = "active" ∧ r.subscription_id = sub2 ∧ r.plan_id = plan2 := by
    intro r hr hrc
    rcases List.mem_map.mp hr with ⟨r0, hr0, hr0eq⟩
    by_cases hb : (r0.stripe_customer_id == cus) = true
    · rw [if_pos hb] at hr0eq
      subst hr0eq
      exact ⟨rfl, rfl, rfl⟩
    · rw [if_neg hb] at hr0eq
      subst hr0eq
      exact absurd (by simp [hrc]) hb
  refine ⟨?_, ?_, ?_, ?_, ?_⟩
  · rw [hdb1]; exact hc1
  · rw [hdb1]; exact hmem1
  · rw [hdb1, hdb2]; exact hc2
  · rw [hdb1, hdb2]; exact hmem2
  · rw [hdb1, hdb2, List.length_map]

/--
Witness for C3 at a concrete input: starting from an empty users table,
customer cus_1 completing checkout yields exactly one matching row.
-/
theorem C3_checkout_completed_upsert_witness :
    (handleSuccessfulPayment true ⟨"cus_1", "sub_1", "pro", ""⟩ []).countP
      (fun r => r.stripe_customer_id == "cus_1") = 1 :=
  (C3_checkout_completed_upsert [] "cus_1" "sub_1" "pro" "sub_2" "ent" (by decide)).1

/- ===== company-data tables and list helpers ===== -/

/--
Row of the industries table (referenced by the analysis query, lines 184-195;
the table is created outside this file's DDL, its two referenced columns are
naics_code and industry_title).
-/
structure Industry where
  naics_code : String
  industry_title : String
deriving DecidableEq

/--
Row of the companies table (createTables lines 343-360), restricted to the
columns the analysed queries read; naics_code is nullable, a NULL never
satisfies an SQL equality join.
-/
structure Company where
  id : Nat
  name : String
  ticker_symbol : String
  naics_code : Option String
  market_cap : ℚ
deriving DecidableEq

/-- Row of the financial_metrics table (createTables lines 362-374), referenced columns only. -/
structure FinancialMetric where
  company_id : Nat
  metric_type : String
  metric_value : ℚ
deriving DecidableEq

/--
Row of the news_sentiment table (referenced by the compare query, line 227;
published_date is measured in days so that the SQL interval condition
published_date > NOW() - INTERVAL '30 days' reads published_date > now - 30).
-/
structure NewsSentiment where
  company_id : Nat
  sentiment_score : ℚ
  published_date : Int
deriving DecidableEq

/-- SQL AVG over a list of non-null values: NULL on the empty list, else sum/count. -/
def avgQ (l : List ℚ) : Option ℚ :=
  if l.isEmpty then none else some (l.sum / (l.length : ℚ))

theorem list_filterMap_flatMap {α β γ : Type} (l : List α) (g : α → List β) (f : β → Option γ) :
    (l.flatMap g).filterMap f = l.flatMap (fun a => (g a).filterMap f) := by
  induction l with
  | nil => rfl
  | cons a t ih => simp [List.flatMap_cons, List.filterMap_append, ih]

theorem list_length_flatMap {α β : Type} (l : List α) (g : α → List β) :
    (l.flatMap g).length = (l.map (fun a => (g a).length)).sum := by
  induction l with
  | nil => rfl
  | cons a t ih => simp [List.flatMap_cons, ih]

theorem list_filterMap_some {α β : Type} (l : List α) (f : α → β) :
    l.filterMap (fun a => some (f a)) = l.map f := by
  induction l with
  | nil => rfl
  | cons a t ih => simp [List.filterMap_cons, ih]

theorem list_map_congr {α β : Type} {l : List α} {f g : α → β}
    (h : ∀ a ∈ l, f a = g a) : l.map f = l.map g := by
  induction l with
  | nil => rfl
  | cons a t ih =>
    simp only [List.map_cons]
    rw [h a (List.mem_cons_self a t), ih (fun x hx => h x (List.mem_cons_of_mem a hx))]

theorem dedup_const {α : Type} [DecidableEq α] (l : List α) :
    ∀ t : α, l ≠ [] → (∀ x ∈ l, x = t) → l.dedup = [t] := by
  induction l with
  | nil => intro t h _; exact absurd rfl h
  | cons a xs ih =>
    intro t _ hall
    have ha : a = t := hall a (List.mem_cons_self a xs)
    subst ha
    rcases xs with _ | ⟨b, ys⟩
    · rw [List.dedup_cons_of_not_mem (List.not_mem_nil a), List.dedup_nil]
    · have hmem : a ∈ b :: ys := by
        have hb : b = a := hall b (by simp)
        simp [hb]
      rw [List.dedup_cons_of_mem hmem]
      exact ih a (by simp) (fun x hx => hall x (List.mem_cons_of_mem a hx))

/- ===== GET /api/industries/:code/analysis (server.js lines 180-203) ===== -/

/-- Result row of the industry-analysis query (aliases of lines 186-189). -/
structure IndustryAnalysisRow where
  industry_title : String
  company_count : Nat
  avg_market_cap : Option ℚ
  avg_growth_rate : Option ℚ
deriving DecidableEq

/--
Join rows of the industry-analysis query before grouping:
FROM industries i
LEFT JOIN companies c ON i.naics_code = c.naics_code
LEFT JOIN financial_metrics fm ON c.id = fm.company_id AND fm.metric_type = 'revenue_growth'
WHERE i.naics_code = $1.
Each row is the industry title together with the joined company (none when the
industry has no company) and the joined metric value (none when the company
has no revenue_growth metric).
-/
def industryJoinRows (industries : List Industry) (companies : List Company)
    (metrics : List FinancialMetric) (code : String) :
    List (String × Option (Company × Option ℚ)) :=
  (industries.filter (fun i => i.naics_code == code)).flatMap (fun i =>
    if (companies.filter (fun c => c.naics_code == some i.naics_code)).isEmpty then
      [(i.industry_title, none)]
    else
      (companies.filter (fun c => c.naics_code == some i.naics_code)).flatMap (fun c =>
        if (metrics.filter (fun m =>
            m.company_id == c.id && m.metric_type == "revenue_growth")).isEmpty then
          [(i.industry_title, some (c, none))]
        else
          (metrics.filter (fun m =>
            m.company_id == c.id && m.metric_type == "revenue_growth")).map
            (fun m => (i.industry_title, some (c, some m.metric_value)))))

/--
One output group of the analysis query, for grouping key t:
COUNT(c.id) counts the join rows of the group with a company present (SQL
COUNT of a non-null expression), and the two AVGs ignore SQL NULLs.
-/
def industryGroupRow (rows : List (String × Option (Company × Option ℚ)))
    (t : String) : IndustryAnalysisRow :=
  { industry_title := t
    company_count := ((rows.filter (fun r => r.1 == t)).filterMap Prod.snd).length
    avg_market_cap :=
      avgQ (((rows.filter (fun r => r.1 == t)).filterMap Prod.snd).map
        (fun p => p.1.market_cap))
    avg_growth_rate :=
      avgQ (((rows.filter (fun r => r.1 == t)).filterMap Prod.snd).filterMap Prod.snd) }

/--
GET /api/industries/:code/analysis (lines 180-203): the join rows are grouped
by industry_title (group keys in order of first appearance; the grouping key
is effectively unique because the WHERE clause pins the naics_code).  The
endpoint answers result.rows[0] || {}, so none stands for the empty object.
-/
def industryAnalysis (industries : List Industry) (companies : List Company)
    (metrics : List FinancialMetric) (code : String) : Option IndustryAnalysisRow :=
  ((((industryJoinRows industries companies metrics code).map Prod.fst).dedup).map
    (industryGroupRow (industryJoinRows industries companies metrics code))).head?

def exIndustry : Industry := ⟨"11", "Agriculture"⟩

def exCompanyAg : Company := ⟨1, "AgriCo", "AGR", some "11", 100⟩

def exGrowthMetrics : List FinancialMetric :=
  [⟨1, "revenue_growth", 5⟩, ⟨1, "revenue_growth", 7⟩]

/--
Counterexample to claim C4 as stated: with one industry 11 holding one company
that has two revenue_growth metric rows, the LEFT JOIN to financial_metrics
duplicates the company, so company_count is 2 while exactly one company has
naics_code 11.
-/
theorem C4_company_count_counterexample :
    (industryAnalysis [exIndustry] [exCompanyAg] exGrowthMetrics "11").map
        IndustryAnalysisRow.company_count = some 2 ∧
    ([exCompanyAg].filter (fun c => c.naics_code == some "11")).length = 1 ∧
    (industryAnalysis [exIndustry] [exCompanyAg] exGrowthMetrics "11").map
        IndustryAnalysisRow.company_count ≠
      some ([exCompanyAg].filter (fun c => c.naics_code == some "11")).length := by
  refine ⟨by decide, by decide, by decide⟩

theorem list_dedup_single {α : Type} [DecidableEq α] (a : α) : [a].dedup = [a] := by
  rw [List.dedup_cons_of_not_mem (List.not_mem_nil a), List.dedup_nil]

/--
Claim C4, amended: the analysis row's company_count equals the sum, over the
companies whose naics_code matches the industry, of max 1 (number of that
company's revenue_growth metric rows) — the LEFT JOIN to financial_metrics
duplicates a company once per matching metric row, so the count equals the
number of matching companies only when each has at most one such row.  The
remaining parts of the claim hold as stated: when the industry exists but has
zero companies the aggregates are null, and when no industry row matches the
code the response is the empty object (none), not a 404.
-/
theorem C4_amended_industry_analysis (industries : List Industry)
    (companies : List Company) (metrics : List FinancialMetric) (code : String) :
    (industries.filter (fun i => i.naics_code == code) = [] →
      industryAnalysis industries companies metrics code = none) ∧
    (∀ i0, industries.filter (fun i => i.naics_code == code) = [i0] →
      ∃ row, industryAnalysis industries companies metrics code = some row ∧
        row.industry_title = i0.industry_title ∧
        row.company_count =
          ((companies.filter (fun c => c.naics_code == some i0.naics_code)).map
            (fun c => max 1 (metrics.filter (fun m =>
              m.company_id == c.id && m.metric_type == "revenue_growth")).length)).sum ∧
        (companies.filter (fun c => c.naics_code == some i0.naics_code) = [] →
          row.avg_market_cap = none ∧ row.avg_growth_rate = none)) := by
  constructor
  · intro hf
    simp [industryAnalysis, industryJoinRows, hf]
  · intro i0 hf
    by_cases hcs : companies.filter (fun c => c.naics_code == some i0.naics_code) = []
    · have hrows : industryJoinRows industries companies metrics code =
          [(i0.industry_title, none)] := by
        simp only [industryJoinRows, hf, List.flatMap_cons, List.flatMap_nil,
          List.append_nil]
        rw [hcs]
        rfl
      refine ⟨industryGroupRow [(i0.industry_title, none)] i0.industry_title,
        ?_, rfl, ?_, fun _ => ?_⟩
      · simp [industryAnalysis, hrows, list_dedup_single]
      · simp [industryGroupRow, hcs, avgQ]
      · constructor <;> simp [industryGroupRow, avgQ]
    · rcases List.exists_cons_of_ne_nil hcs with ⟨c0, cs', hcs'⟩
      have hemp : (companies.filter
          (fun c => c.naics_code == some i0.naics_code)).isEmpty = false := by
        rw [hcs']; rfl
      have hrows : industryJoinRows industries companies metrics code =
          (companies.filter (fun c => c.naics_code == some i0.naics_code)).flatMap
            (fun c =>
              if (metrics.filter (fun m =>
                  m.company_id == c.id && m.metric_type == "revenue_growth")).isEmpty then
                [(i0.industry_title, some (c, none))]
              else
                (metrics.filter (fun m =>
                  m.company_id == c.id && m.metric_type == "revenue_growth")).map
                  (fun m => (i0.industry_title, some (c, some m.metric_value)))) := by
        simp only [industryJoinRows, hf, List.flatMap_cons, List.flatMap_nil,
          List.append_nil]
        rw [hemp]
        rfl
      have hall : ∀ r ∈ industryJoinRows industries companies metrics code,
          r.1 = i0.industry_title := by
        rw [hrows]
        intro r hr
        rcases List.mem_flatMap.mp hr with ⟨c, _, hrc⟩
        by_cases hm : (metrics.filter (fun m =>
            m.company_id == c.id && m.metric_type == "revenue_growth")).isEmpty
        · rw [if_pos hm] at hrc
          rw [List.mem_singleton.mp hrc]
        · rw [if_neg hm] at hrc
          rcases List.mem_map.mp hrc with ⟨m, _, hme⟩
          rw [← hme]
      have hne : industryJoinRows industries companies metrics code ≠ [] := by
        rw [hrows, hcs', List.flatMap_cons]
        intro hnil
        rcases List.append_eq_nil.mp hnil with ⟨h1, _⟩
        by_cases hm : (metrics.filter (fun m =>
            m.company_id == c0.id && m.metric_type == "revenue_growth")).isEmpty
        · rw [if_pos hm] at h1
          exact List.cons_ne_nil _ _ h1
        · rw [if_neg hm] at h1
          rw [List.map_eq_nil_iff] at h1
          rw [h1] at hm
          exact hm rfl
      have hdedup : (((industryJoinRows industries companies metrics code).map
          Prod.fst).dedup) = [i0.industry_title] := by
        apply dedup_const
        · intro hnil
          rw [List.map_eq_nil_iff] at hnil
          exact hne hnil
        · intro x hx
          rcases List.mem_map.mp hx with ⟨r, hr, hre⟩
          rw [← hre]
          exact hall r hr
      have hres : industryAnalysis industries companies metrics code =
          some (industryGroupRow (industryJoinRows industries companies metrics code)
            i0.industry_title) := by
        rw [industryAnalysis, hdedup]
        rfl
      have hfilter : (industryJoinRows industries companies metrics code).filter
          (fun r => r.1 == i0.industry_title) =
          industryJoinRows industries companies metrics code := by
        apply List.filter_eq_self.mpr
        intro a ha
        simp [hall a ha]
      have hcount : (((industryJoinRows industries companies metrics code).filter
          (fun r => r.1 == i0.industry_title)).filterMap Prod.snd).length =
          ((companies.filter (fun c => c.naics_code == some i0.naics_code)).map
            (fun c => max 1 (metrics.filter (fun m =>
              m.company_id == c.id && m.metric_type == "revenue_growth")).length)).sum := by
        rw [hfilter, hrows, list_filterMap_flatMap, list_length_flatMap]
        apply congrArg
        apply list_map_congr
        intro c _
        by_cases hm : (metrics.filter (fun m =>
            m.company_id == c.id && m.metric_type == "revenue_growth")).isEmpty
        · rw [if_pos hm]
          have : metrics.filter (fun m =>
              m.company_id == c.id && m.metric_type == "revenue_growth") = [] :=
            List.isEmpty_iff.mp hm
          rw [this]
          rfl
        · rw [if_neg hm]
          have hmn : metrics.filter (fun m =>
              m.company_id == c.id && m.metric_type == "revenue_growth") ≠ [] := by
            intro hnil
            rw [hnil] at hm
            exact hm rfl
          rw [List.filterMap_map]
          have hcomp : (Prod.snd ∘ (fun m : FinancialMetric =>
              (i0.industry_title, some (c, some m.metric_value)))) =
              (fun m : FinancialMetric => some (c, some m.metric_value)) := rfl
          rw [hcomp, list_filterMap_some, List.length_map]
          have hlen : 0 < (metrics.filter (fun m =>
              m.company_id == c.id && m.metric_type == "revenue_growth")).length :=
            List.length_pos.mpr hmn
          omega
      exact ⟨industryGroupRow (industryJoinRows industries companies metrics code)
          i0.industry_title,
        hres, rfl, hcount, fun hcs0 => absurd hcs0 hcs⟩

/--
Witness for the amended C4 at a concrete input: industry 11 exists with no
matching companies, so the analysis returns a row with zero count and null
averages.
-/
theorem C4_amended_industry_analysis_witness :
    ∃ row, industryAnalysis [exIndustry] [] [] "11" = some row ∧
      row.industry_title = exIndustry.industry_title ∧
      row.company_count =
        ((([] : List Company).filter
            (fun c => c.naics_code == some exIndustry.naics_code)).map
          (fun c => max 1 (([] : List FinancialMetric).filter (fun m =>
            m.company_id == c.id && m.metric_type == "revenue_growth")).length)).sum ∧
      (([] : List Company).filter
          (fun c => c.naics_code == some exIndustry.naics_code) = [] →
        row.avg_market_cap = none ∧ row.avg_growth_rate = none) :=
  (C4_amended_industry_analysis [exIndustry] [] [] "11").2 exIndustry (by decide)

/- ===== POST /api/compare (server.js lines 206-261) and its row set ===== -/

/-- Result row of the compare query (SELECT list, lines 217-224); the three AVG aliases are nullable. -/
structure CompareRow where
  id : Nat
  name : String
  ticker_symbol : String
  market_cap : ℚ
  revenue : Option ℚ
  growth_rate : Option ℚ
  avg_sentiment : Option ℚ
deriving DecidableEq

/--
Join rows for one company of the compare query (lines 225-227):
LEFT JOIN financial_metrics fm ON c.id = fm.company_id
LEFT JOIN news_sentiment ns ON c.id = ns.company_id AND ns.published_date > NOW() - INTERVAL '30 days';
ms and ss are the rows of the two joined tables already restricted to the
company (and the 30-day window).  The two successive left joins produce the
cross product of ms and ss, padding either side with NULL when empty.
-/
def compareJoin (ms : List FinancialMetric) (ss : List NewsSentiment) :
    List (Option FinancialMetric × Option NewsSentiment) :=
  (if ms.isEmpty then [none] else ms.map some).flatMap (fun mo =>
    if ss.isEmpty then [(mo, none)] else ss.map (fun s => (mo, some s)))

/--
SQL AVG(CASE WHEN fm.metric_type = t THEN fm.metric_value END) over the join
rows: NULL join sides and non-matching metric types contribute NULL and are
ignored by AVG.
-/
def caseAvg (t : String) (rows : List (Option FinancialMetric × Option NewsSentiment)) :
    Option ℚ :=
  avgQ (rows.filterMap (fun r =>
    match r.1 with
    | some m => if m.metric_type == t then some m.metric_value else none
    | none => none))

/--
One output row of the compare query for company c (GROUP BY c.id, c.name,
c.ticker_symbol, c.market_cap; c.id is the primary key, so each group is
exactly one company's join rows).
-/
def compareRowFor (c : Company) (metrics : List FinancialMetric)
    (sentis : List NewsSentiment) (now : Int) : CompareRow :=
  { id := c.id
    name := c.name
    ticker_symbol := c.ticker_symbol
    market_cap := c.market_cap
    revenue := caseAvg "revenue"
      (compareJoin (metrics.filter (fun m => m.company_id == c.id))
        (sentis.filter (fun s =>
          s.company_id == c.id && decide (s.published_date > now - 30))))
    growth_rate := caseAvg "revenue_growth"
      (compareJoin (metrics.filter (fun m => m.company_id == c.id))
        (sentis.filter (fun s =>
          s.company_id == c.id && decide (s.published_date > now - 30))))
    avg_sentiment := avgQ
      ((compareJoin (metrics.filter (fun m => m.company_id == c.id))
        (sentis.filter (fun s =>
          s.company_id == c.id && decide (s.published_date > now - 30)))).filterMap
        (fun r => r.2.map (fun s => s.sentiment_score))) }

/--
Row set of the compare query (lines 216-230): WHERE c.id IN (ids), one output
row per matching company.
-/
def compareQuery (companies : List Company) (metrics : List FinancialMetric)
    (sentis : List NewsSentiment) (now : Int) (ids : List Nat) : List CompareRow :=
  (companies.filter (fun c => decide (c.id ∈ ids))).map
    (fun c => compareRowFor c metrics sentis now)

/- ===== helper lemmas for the join fan-out ===== -/

theorem list_filterMap_none {α β : Type} (l : List α) :
    l.filterMap (fun _ => (none : Option β)) = [] := by
  induction l with
  | nil => rfl
  | cons a t ih => simp [List.filterMap_cons, ih]

theorem list_filterMap_ite {α β : Type} (p : α → Bool) (g : α → β) (l : List α) :
    l.filterMap (fun a => if p a then some (g a) else none) = (l.filter p).map g := by
  induction l with
  | nil => rfl
  | cons a t ih =>
    by_cases h : p a <;> simp [List.filterMap_cons, List.filter_cons, h, ih]

theorem list_flatMap_congr {α β : Type} {l : List α} {f g : α → List β}
    (h : ∀ a ∈ l, f a = g a) : l.flatMap f = l.flatMap g := by
  induction l with
  | nil => rfl
  | cons a t ih =>
    simp only [List.flatMap_cons]
    rw [h a (List.mem_cons_self a t), ih (fun x hx => h x (List.mem_cons_of_mem a hx))]

theorem list_sum_map_const {α : Type} (l : List α) (c : ℚ) :
    (l.map (fun _ => c)).sum = (l.length : ℚ) * c := by
  induction l with
  | nil => simp
  | cons a t ih =>
    simp [ih]
    ring

theorem sum_flatMap_ite {α β : Type} (p : α → Bool) (v : α → ℚ) (ss : List β)
    (l : List α) :
    (l.flatMap (fun a => if p a then ss.map (fun _ => v a) else [])).sum =
      (ss.length : ℚ) * ((l.filter p).map v).sum := by
  induction l with
  | nil => simp
  | cons a t ih =>
    rw [List.flatMap_cons, List.sum_append, ih, List.filter_cons]
    by_cases h : p a
    · rw [if_pos h, if_pos h, List.map_cons, List.sum_cons, list_sum_map_const]
      ring
    · rw [if_neg h, if_neg h]
      simp

theorem length_flatMap_ite {α β : Type} (p : α → Bool) (v : α → ℚ) (ss : List β)
    (l : List α) :
    (l.flatMap (fun a => if p a then ss.map (fun _ => v a) else [])).length =
      ss.length * ((l.filter p).map v).length := by
  induction l with
  | nil => simp
  | cons a t ih =>
    rw [List.flatMap_cons, List.length_append, ih, List.filter_cons]
    by_cases h : p a
    · rw [if_pos h, if_pos h, List.map_cons, List.length_cons, List.length_map,
        List.length_map]
      ring
    · rw [if_neg h, if_neg h]
      simp

theorem sum_flatMap_const {α : Type} (l : List α) (L : List ℚ) :
    (l.flatMap (fun _ => L)).sum = (l.length : ℚ) * L.sum := by
  induction l with
  | nil => simp
  | cons a t ih =>
    simp [List.flatMap_cons, ih]
    ring

theorem length_flatMap_const {α β : Type} (l : List α) (L : List β) :
    (l.flatMap (fun _ => L)).length = l.length * L.length := by
  induction l with
  | nil => simp
  | cons a t ih =>
    simp [List.flatMap_cons, ih]
    ring

theorem avgQ_scale (k : Nat) (hk : k ≠ 0) (l l' : List ℚ)
    (hsum : l'.sum = (k : ℚ) * l.sum) (hlen : l'.length = k * l.length) :
    avgQ l' = avgQ l := by
  rcases l with _ | ⟨a, t⟩
  · have h0 : l'.length = 0 := by rw [hlen]; simp
    rw [List.length_eq_zero] at h0
    rw [h0]
  · have hlpos : l'.length ≠ 0 := by
      rw [hlen]
      exact Nat.mul_ne_zero hk (by simp)
    have hlne : l' ≠ [] := fun hn => hlpos (by rw [hn]; rfl)
    have h1 : l'.isEmpty = false := List.isEmpty_eq_false.mpr hlne
    simp only [avgQ, h1, List.isEmpty_cons, Bool.false_eq_true, if_false]
    rw [hsum, hlen]
    push_cast
    rw [mul_div_mul_left _ _ (by exact_mod_cast hk : ((k : ℚ)) ≠ 0)]

theorem compareJoin_nil_nil :
    compareJoin [] [] =
      [((none : Option FinancialMetric), (none : Option NewsSentiment))] := rfl


theorem compareJoin_nil_left (ss : List NewsSentiment) (hss : ss ≠ []) :
    compareJoin [] ss = ss.map (fun s => ((none : Option FinancialMetric), some s)) := by
  have h : ss.isEmpty = false := List.isEmpty_eq_false.mpr hss
  simp only [compareJoin, List.isEmpty_nil, if_true, List.flatMap_cons, List.flatMap_nil,
    List.append_nil, h, Bool.false_eq_true, if_false]

theorem list_flatMap_one {α β : Type} (l : List α) (g : α → β) :
    l.flatMap (fun a => [g a]) = l.map g := by
  induction l with
  | nil => rfl
  | cons a t ih => simp [List.flatMap_cons, ih]

theorem compareJoin_nil_right (ms : List FinancialMetric) (hms : ms ≠ []) :
    compareJoin ms [] = ms.map (fun m => (some m, (none : Option NewsSentiment))) := by
  have h : ms.isEmpty = false := List.isEmpty_eq_false.mpr hms
  simp only [compareJoin, h, Bool.false_eq_true, if_false, List.isEmpty_nil, if_true]
  rw [List.flatMap_map]
  exact list_flatMap_one ms (fun m => (some m, none))

theorem compareJoin_both (ms : List FinancialMetric) (ss : List NewsSentiment)
    (hms : ms ≠ []) (hss : ss ≠ []) :
    compareJoin ms ss = ms.flatMap (fun m => ss.map (fun s => (some m, some s))) := by
  have h1 : ms.isEmpty = false := List.isEmpty_eq_false.mpr hms
  have h2 : ss.isEmpty = false := List.isEmpty_eq_false.mpr hss
  simp only [compareJoin, h1, h2, Bool.false_eq_true, if_false]
  rw [List.flatMap_map]

/--
Fan-out invariance for the metric-typed averages: the CASE average over the
cross-product join rows equals the plain average over the company's metrics of
the requested type, because every metric row is duplicated once per sentiment
row (uniformly).
-/
theorem caseAvg_compareJoin (t : String) (ms : List FinancialMetric)
    (ss : List NewsSentiment) :
    caseAvg t (compareJoin ms ss) =
      avgQ ((ms.filter (fun m => m.metric_type == t)).map (fun m => m.metric_value)) := by
  rcases hms : ms with _ | ⟨m0, mt⟩
  · rcases hss : ss with _ | ⟨s0, st⟩
    · rfl
    · rw [caseAvg, compareJoin_nil_left (s0 :: st) (List.cons_ne_nil s0 st),
        List.filterMap_map]
      rw [show ((fun r : Option FinancialMetric × Option NewsSentiment =>
          match r.1 with
          | some m => if m.metric_type == t then some m.metric_value else none
          | none => none) ∘ (fun s : NewsSentiment => ((none : Option FinancialMetric), some s))) =
          (fun _ : NewsSentiment => (none : Option ℚ)) from rfl]
      rw [list_filterMap_none]
      rfl
  · rcases hss : ss with _ | ⟨s0, st⟩
    · rw [caseAvg, compareJoin_nil_right (m0 :: mt) (List.cons_ne_nil m0 mt),
        List.filterMap_map]
      rw [show ((fun r : Option FinancialMetric × Option NewsSentiment =>
          match r.1 with
          | some m => if m.metric_type == t then some m.metric_value else none
          | none => none) ∘ (fun m : FinancialMetric => (some m, (none : Option NewsSentiment)))) =
          (fun m : FinancialMetric =>
            if m.metric_type == t then some m.metric_value else none) from rfl]
      rw [list_filterMap_ite]
    · rw [caseAvg, compareJoin_both (m0 :: mt) (s0 :: st)
          (List.cons_ne_nil m0 mt) (List.cons_ne_nil s0 st),
        list_filterMap_flatMap]
      have hinner : ∀ m ∈ m0 :: mt,
          ((s0 :: st).map (fun s => (some m, some s))).filterMap
            (fun r : Option FinancialMetric × Option NewsSentiment =>
              match r.1 with
              | some m => if m.metric_type == t then some m.metric_value else none
              | none => none) =
          (if m.metric_type == t then
            (s0 :: st).map (fun _ => m.metric_value) else []) := by
        intro m _
        rw [List.filterMap_map]
        rw [show ((fun r : Option FinancialMetric × Option NewsSentiment =>
            match r.1 with
            | some m => if m.metric_type == t then some m.metric_value else none
            | none => none) ∘ (fun s : NewsSentiment => (some m, some s))) =
            (fun _ : NewsSentiment =>
              if m.metric_type == t then some m.metric_value else none) from rfl]
        by_cases h : m.metric_type == t
        · simp only [h, if_true]
          exact list_filterMap_some (s0 :: st) (fun _ => m.metric_value)
        · simp only [h, Bool.false_eq_true, if_false]
          exact list_filterMap_none (s0 :: st)
      rw [list_flatMap_congr hinner]
      exact avgQ_scale (s0 :: st).length (by simp) _ _
        (sum_flatMap_ite _ _ _ _) (length_flatMap_ite _ _ _ _)

/--
Fan-out invariance for AVG(ns.sentiment_score): the average over the
cross-product join rows equals the plain average over the company's sentiment
rows in the window, each sentiment row being duplicated once per metric row
(uniformly).
-/
theorem sentimentAvg_compareJoin (ms : List FinancialMetric) (ss : List NewsSentiment) :
    avgQ ((compareJoin ms ss).filterMap (fun r => r.2.map (fun s => s.sentiment_score))) =
      avgQ (ss.map (fun s => s.sentiment_score)) := by
  rcases hms : ms with _ | ⟨m0, mt⟩
  · rcases hss : ss with _ | ⟨s0, st⟩
    · rfl
    · rw [compareJoin_nil_left (s0 :: st) (List.cons_ne_nil s0 st), List.filterMap_map]
      rw [show ((fun r : Option FinancialMetric × Option NewsSentiment =>
          r.2.map (fun s => s.sentiment_score)) ∘
          (fun s : NewsSentiment => ((none : Option FinancialMetric), some s))) =
          (fun s : NewsSentiment => some s.sentiment_score) from rfl]
      rw [list_filterMap_some]
  · rcases hss : ss with _ | ⟨s0, st⟩
    · rw [compareJoin_nil_right (m0 :: mt) (List.cons_ne_nil m0 mt), List.filterMap_map]
      rw [show ((fun r : Option FinancialMetric × Option NewsSentiment =>
          r.2.map (fun s => s.sentiment_score)) ∘
          (fun m : FinancialMetric => (some m, (none : Option NewsSentiment)))) =
          (fun _ : FinancialMetric => (none : Option ℚ)) from rfl]
      rw [list_filterMap_none]
      rfl
    · rw [compareJoin_both (m0 :: mt) (s0 :: st)
          (List.cons_ne_nil m0 mt) (List.cons_ne_nil s0 st),
        list_filterMap_flatMap]
      have hinner : ∀ m ∈ m0 :: mt,
          ((s0 :: st).map (fun s => (some m, some s))).filterMap
            (fun r : Option FinancialMetric × Option NewsSentiment =>
              r.2.map (fun s => s.sentiment_score)) =
          (s0 :: st).map (fun s => s.sentiment_score) := by
        intro m _
        rw [List.filterMap_map]
        rw [show ((fun r : Option FinancialMetric × Option NewsSentiment =>
            r.2.map (fun s => s.sentiment_score)) ∘
            (fun s : NewsSentiment => (some m, some s))) =
            (fun s : NewsSentiment => some s.sentiment_score) from rfl]
        exact list_filterMap_some (s0 :: st) (fun s => s.sentiment_score)
      rw [list_flatMap_congr hinner]
      exact avgQ_scale (m0 :: mt).length (by simp) _ _
        (sum_flatMap_const _ _) (length_flatMap_const _ _)

/- ===== generateComparisonInsights (server.js lines 247-261) ===== -/

/-- Digit rendering of toFixed(1) for a non-negative rational: nearest tenth, ties up. -/
def toFixed1aux (q : ℚ) : String :=
  toString (Int.floor (q * 10 + 1 / 2) / 10) ++ "." ++
    toString (Int.floor (q * 10 + 1 / 2) % 10)

/--
Number.prototype.toFixed(1) on the idealized (rational) value: the sign is
taken first, then the absolute value is rendered with one digit after the
point, rounding to the nearest tenth with ties towards the larger candidate
(ECMA-262 Number.prototype.toFixed).
-/
def toFixed1 (q : ℚ) : String :=
  if q < 0 then "-" ++ toFixed1aux (-q) else toFixed1aux q

/-- JavaScript subtraction where either operand may be undefined: undefined yields NaN (none). -/
def jsSub : Option ℚ → Option ℚ → Option ℚ
  | some a, some b => some (a - b)
  | _, _ => none

/-- Test whether a JavaScript comparator result is a number greater than zero (NaN is not). -/
def jsCmpPositive : Option ℚ → Bool
  | some v => decide (0 < v)
  | none => false

/--
Stable insertion used by the model of Array.prototype.sort: a is moved past b
exactly when the comparator says a sorts strictly after b; on ties (or NaN)
a stays before b, which preserves the original order of tied elements.
-/
def insertStable {α : Type} (shouldMoveAfter : α → α → Bool) (a : α) :
    List α → List α
  | [] => [a]
  | b :: l =>
      if shouldMoveAfter a b then b :: insertStable shouldMoveAfter a l
      else a :: b :: l

/--
Model of Array.prototype.sort with a comparator (stable since ES2019): a
stable insertion sort, folding from the right so that earlier elements are
inserted last and stop in front of tied later elements.
-/
def jsSortStable {α : Type} (shouldMoveAfter : α → α → Bool) (l : List α) : List α :=
  l.foldr (insertStable shouldMoveAfter) []

/-- Comparator (a, b) => b.market_cap - a.market_cap of line 251, tested for a positive result. -/
def marketCapDesc (a b : CompareRow) : Bool :=
  jsCmpPositive (some (b.market_cap - a.market_cap))

/--
Comparator (a, b) => b.growth_rate - a.growth_rate of line 252, tested for a
positive result; when either growth_rate is absent the subtraction is NaN and
the pair is left in input order.
-/
def growthDesc (a b : CompareRow) : Bool :=
  jsCmpPositive (jsSub b.growth_rate a.growth_rate)

/--
Rendering of sortedByGrowth[0].growth_rate?.toFixed(1) in the template string
of line 255: optional chaining yields undefined when growth_rate is absent,
and the template renders it as the text undefined.
-/
def fmtGrowthRate : Option ℚ → String
  | some v => toFixed1 v
  | none => "undefined"

/--
Line 257: companies.reduce((sum, c) => sum + (c.avg_sentiment || 0), 0) /
companies.length; a missing (or zero) avg_sentiment contributes zero.
-/
def meanSentiment (companies : List CompareRow) : ℚ :=
  (companies.map (fun c => c.avg_sentiment.getD 0)).sum / (companies.length : ℚ)

/-- Ternary chain of line 258: positive above 0.6, neutral above 0.4, else negative. -/
def sentimentLabel (q : ℚ) : String :=
  if q > 0.6 then "positive" else if q > 0.4 then "neutral" else "negative"

/--
generateComparisonInsights (lines 247-261).  On an empty input the code
dereferences sortedByMarketCap[0].name of an undefined element and throws a
TypeError, modelled as none; otherwise it returns the three template strings
of lines 254, 255 and 258.
-/
def generateComparisonInsights (companies : List CompareRow) : Option (List String) :=
  match (jsSortStable marketCapDesc companies).head?,
        (jsSortStable growthDesc companies).head? with
  | some top, some topG =>
      some [top.name ++ " leads in market capitalization with $" ++
              toFixed1 (top.market_cap / 1000000000) ++ "B",
            topG.name ++ " shows highest growth rate at " ++
              fmtGrowthRate topG.growth_rate ++ "%",
            "Overall market sentiment is " ++ sentimentLabel (meanSentiment companies)]
  | _, _ => none

/-- HTTP outcome of POST /api/compare: 400 validation, 200 payload, or the catch-all 500. -/
inductive CompareHttp where
  | badRequest : CompareHttp
  | ok : List CompareRow → List String → CompareHttp
  | serverError : CompareHttp
deriving DecidableEq

/--
POST /api/compare (lines 206-245): companyIds missing or shorter than 2
yields 400; otherwise the query rows feed generateComparisonInsights and the
response carries rows and insights; an error thrown inside the try block
(in particular the TypeError of the insight generator on an empty row set)
is caught by the catch branch and yields 500.
-/
def compareEndpoint (companies : List Company) (metrics : List FinancialMetric)
    (sentis : List NewsSentiment) (now : Int) (companyIds : Option (List Nat)) :
    CompareHttp :=
  match companyIds with
  | none => CompareHttp.badRequest
  | some ids =>
      if ids.length < 2 then CompareHttp.badRequest
      else
        match generateComparisonInsights (compareQuery companies metrics sentis now ids) with
        | some ins => CompareHttp.ok (compareQuery companies metrics sentis now ids) ins
        | none => CompareHttp.serverError

/-- HTTP status code of a compare outcome. -/
def compareStatus : CompareHttp → Nat
  | CompareHttp.badRequest => 400
  | CompareHttp.ok _ _ => 200
  | CompareHttp.serverError => 500

/- ===== correctness of the stable-sort model ===== -/

theorem insertStable_perm {α : Type} (s : α → α → Bool) (a : α) (l : List α) :
    (insertStable s a l).Perm (a :: l) := by
  induction l with
  | nil => exact List.Perm.refl [a]
  | cons b t ih =>
    by_cases h : s a b
    · show (if s a b then b :: insertStable s a t else a :: b :: t).Perm (a :: b :: t)
      rw [if_pos h]
      exact (ih.cons b).trans (List.Perm.swap a b t)
    · show (if s a b then b :: insertStable s a t else a :: b :: t).Perm (a :: b :: t)
      rw [if_neg h]

theorem jsSortStable_perm {α : Type} (s : α → α → Bool) (l : List α) :
    (jsSortStable s l).Perm l := by
  induction l with
  | nil => exact List.Perm.refl []
  | cons a t ih =>
    show (insertStable s a (jsSortStable s t)).Perm (a :: t)
    exact (insertStable_perm s a (jsSortStable s t)).trans (ih.cons a)

theorem jsSortStable_ne_nil {α : Type} (s : α → α → Bool) (l : List α) (h : l ≠ []) :
    jsSortStable s l ≠ [] := by
  intro he
  apply h
  have hp := jsSortStable_perm s l
  rw [he] at hp
  exact (hp.nil_eq).symm

theorem insertStable_pairwise {α : Type} (key : α → ℚ) (s : α → α → Bool)
    (S : α → Prop) (hs : ∀ x, S x → ∀ y, S y → ((s x y = true) ↔ key x < key y))
    (a : α) (ha : S a) :
    ∀ l : List α, (∀ x ∈ l, S x) → l.Pairwise (fun x y => key y ≤ key x) →
      (insertStable s a l).Pairwise (fun x y => key y ≤ key x) := by
  intro l
  induction l with
  | nil => intro _ _; exact List.pairwise_singleton _ a
  | cons b t ih =>
    intro hmem hp
    have hSb : S b := hmem b (List.mem_cons_self b t)
    by_cases h : s a b
    · show (if s a b then b :: insertStable s a t else a :: b :: t).Pairwise
        (fun x y => key y ≤ key x)
      rw [if_pos h, List.pairwise_cons]
      constructor
      · intro x hx
        rcases List.mem_cons.mp
            ((List.Perm.mem_iff (insertStable_perm s a t)).mp hx) with rfl | hxt
        · exact le_of_lt ((hs _ ha b hSb).mp h)
        · exact (List.pairwise_cons.mp hp).1 x hxt
      · exact ih (fun x hx => hmem x (List.mem_cons_of_mem b hx))
          (List.pairwise_cons.mp hp).2
    · show (if s a b then b :: insertStable s a t else a :: b :: t).Pairwise
        (fun x y => key y ≤ key x)
      rw [if_neg h, List.pairwise_cons]
      have hba : key b ≤ key a :=
        le_of_not_lt (fun hlt => h ((hs a ha b hSb).mpr hlt))
      constructor
      · intro x hx
        rcases List.mem_cons.mp hx with rfl | hxt
        · exact hba
        · exact le_trans ((List.pairwise_cons.mp hp).1 x hxt) hba
      · exact hp

theorem jsSortStable_pairwise {α : Type} (key : α → ℚ) (s : α → α → Bool)
    (l : List α) (hs : ∀ x ∈ l, ∀ y ∈ l, ((s x y = true) ↔ key x < key y)) :
    (jsSortStable s l).Pairwise (fun x y => key y ≤ key x) := by
  induction l with
  | nil => exact List.Pairwise.nil
  | cons a t ih =>
    show (insertStable s a (jsSortStable s t)).Pairwise _
    apply insertStable_pairwise key s (fun x => x ∈ a :: t)
      (fun x hx y hy => hs x hx y hy) a (List.mem_cons_self a t)
    · intro x hx
      exact List.mem_cons_of_mem a ((jsSortStable_perm s t).mem_iff.mp hx)
    · exact ih (fun x hx y hy =>
        hs x (List.mem_cons_of_mem a hx) y (List.mem_cons_of_mem a hy))

theorem pairwise_strict_of_distinct {α : Type} (key : α → ℚ) (l : List α)
    (hs : l.Pairwise (fun x y => key y ≤ key x))
    (hd : l.Pairwise (fun x y => key x ≠ key y)) :
    l.Pairwise (fun x y => key y < key x) :=
  (hs.and hd).imp (fun h => lt_of_le_of_ne h.1 (Ne.symm h.2))

theorem eq_of_perm_of_strict_desc {α : Type} (key : α → ℚ) (l1 l2 : List α)
    (hp : l1.Perm l2) (h1 : l1.Pairwise (fun x y => key y < key x))
    (h2 : l2.Pairwise (fun x y => key y < key x)) : l1 = l2 := by
  haveI : IsAntisymm α (fun x y => key y < key x) :=
    ⟨fun a b hab hba => absurd (lt_trans hab hba) (lt_irrefl _)⟩
  exact List.eq_of_perm_of_sorted hp h1 h2

theorem marketCapDesc_iff (a b : CompareRow) :
    (marketCapDesc a b = true) ↔ a.market_cap < b.market_cap := by
  simp [marketCapDesc, jsCmpPositive, sub_pos]

theorem generateComparisonInsights_eq {l : List CompareRow} {top topG : CompareRow}
    {r1 r2 : List CompareRow}
    (h1 : jsSortStable marketCapDesc l = top :: r1)
    (h2 : jsSortStable growthDesc l = topG :: r2) :
    generateComparisonInsights l =
      some [top.name ++ " leads in market capitalization with $" ++
              toFixed1 (top.market_cap / 1000000000) ++ "B",
            topG.name ++ " shows highest growth rate at " ++
              fmtGrowthRate topG.growth_rate ++ "%",
            "Overall market sentiment is " ++ sentimentLabel (meanSentiment l)] := by
  simp only [generateComparisonInsights, h1, h2, List.head?_cons]

/--
Field contract of one compare-query output row: despite the metric × sentiment
join fan-out, each AVG equals the plain per-company average, because duplicate
copies are uniform.
-/
theorem compareRowFor_fields (c : Company) (metrics : List FinancialMetric)
    (sentis : List NewsSentiment) (now : Int) :
    (compareRowFor c metrics sentis now).id = c.id ∧
    (compareRowFor c metrics sentis now).name = c.name ∧
    (compareRowFor c metrics sentis now).revenue =
      avgQ ((metrics.filter (fun m =>
        m.company_id == c.id && m.metric_type == "revenue")).map
        (fun m => m.metric_value)) ∧
    (compareRowFor c metrics sentis now).growth_rate =
      avgQ ((metrics.filter (fun m =>
        m.company_id == c.id && m.metric_type == "revenue_growth")).map
        (fun m => m.metric_value)) ∧
    (compareRowFor c metrics sentis now).avg_sentiment =
      avgQ ((sentis.filter (fun s =>
        s.company_id == c.id && decide (s.published_date > now - 30))).map
        (fun s => s.sentiment_score)) := by
  have hfilter : ∀ t : String,
      (metrics.filter (fun m => m.company_id == c.id)).filter
        (fun m => m.metric_type == t) =
      metrics.filter (fun m => m.company_id == c.id && m.metric_type == t) := by
    intro t
    rw [List.filter_filter]
    apply List.filter_congr
    intro a _
    exact Bool.and_comm _ _
  refine ⟨rfl, rfl, ?_, ?_, ?_⟩
  · show caseAvg "revenue" (compareJoin _ _) = _
    rw [caseAvg_compareJoin, hfilter]
  · show caseAvg "revenue_growth" (compareJoin _ _) = _
    rw [caseAvg_compareJoin, hfilter]
  · show avgQ ((compareJoin _ _).filterMap _) = _
    rw [sentimentAvg_compareJoin]

def exCompanyA : Company := ⟨1, "Alpha", "AL", none, 5000000000⟩

def exCompanyB : Company := ⟨2, "Beta", "BE", none, 2000000000⟩

/--
Claim C5: whenever /api/compare answers 200 (which requires at least two
company ids), every returned row belongs to a requested company and carries
that company's average revenue metric value, average revenue_growth metric
value, and average sentiment score over news of the trailing 30 days, each
computed per company.
-/
theorem C5_compare_rows_per_company_averages (companies : List Company)
    (metrics : List FinancialMetric) (sentis : List NewsSentiment) (now : Int)
    (ids : List Nat) (rows : List CompareRow) (ins : List String)
    (h : compareEndpoint companies metrics sentis now (some ids) =
      CompareHttp.ok rows ins) :
    2 ≤ ids.length ∧
    ∀ row ∈ rows, ∃ c ∈ companies, c.id ∈ ids ∧ row.id = c.id ∧ row.name = c.name ∧
      row.revenue = avgQ ((metrics.filter (fun m =>
        m.company_id == c.id && m.metric_type == "revenue")).map
        (fun m => m.metric_value)) ∧
      row.growth_rate = avgQ ((metrics.filter (fun m =>
        m.company_id == c.id && m.metric_type == "revenue_growth")).map
        (fun m => m.metric_value)) ∧
      row.avg_sentiment = avgQ ((sentis.filter (fun s =>
        s.company_id == c.id && decide (s.published_date > now - 30))).map
        (fun s => s.sentiment_score)) := by
  simp only [compareEndpoint] at h
  by_cases hlen : ids.length < 2
  · rw [if_pos hlen] at h
    cases h
  · rw [if_neg hlen] at h
    rcases hg : generateComparisonInsights
        (compareQuery companies metrics sentis now ids) with _ | ins'
    · rw [hg] at h
      cases h
    · rw [hg] at h
      injection h with h1 h2
      constructor
      · omega
      · intro row hrow
        rw [← h1] at hrow
        rcases List.mem_map.mp hrow with ⟨c, hcf, hce⟩
        have hcmem : c ∈ companies := (List.mem_filter.mp hcf).1
        have hcid : c.id ∈ ids := of_decide_eq_true (List.mem_filter.mp hcf).2
        rcases compareRowFor_fields c metrics sentis now with ⟨f1, f2, f3, f4, f5⟩
        rw [← hce]
        exact ⟨c, hcmem, hcid, f1, f2, f3, f4, f5⟩

/--
Witness for C5 at a concrete request: two companies, ids 1 and 2, empty
metric and sentiment tables; the row for company 1 carries its (empty,
hence null) averages.
-/
theorem C5_compare_rows_per_company_averages_witness :
    ∃ c ∈ [exCompanyA, exCompanyB], c.id ∈ [1, 2] ∧
      (compareRowFor exCompanyA [] [] 0).id = c.id ∧
      (compareRowFor exCompanyA [] [] 0).name = c.name ∧
      (compareRowFor exCompanyA [] [] 0).revenue =
        avgQ ((([] : List FinancialMetric).filter (fun m =>
          m.company_id == c.id && m.metric_type == "revenue")).map
          (fun m => m.metric_value)) ∧
      (compareRowFor exCompanyA [] [] 0).growth_rate =
        avgQ ((([] : List FinancialMetric).filter (fun m =>
          m.company_id == c.id && m.metric_type == "revenue_growth")).map
          (fun m => m.metric_value)) ∧
      (compareRowFor exCompanyA [] [] 0).avg_sentiment =
        avgQ ((([] : List NewsSentiment).filter (fun s =>
          s.company_id == c.id && decide (s.published_date > (0 : Int) - 30))).map
          (fun s => s.sentiment_score)) := by
  have hR : compareQuery [exCompanyA, exCompanyB] [] [] 0 [1, 2] =
      [compareRowFor exCompanyA [] [] 0, compareRowFor exCompanyB [] [] 0] := rfl
  have hne : compareQuery [exCompanyA, exCompanyB] [] [] 0 [1, 2] ≠ [] := by
    rw [hR]
    exact List.cons_ne_nil _ _
  rcases hc : jsSortStable marketCapDesc
      (compareQuery [exCompanyA, exCompanyB] [] [] 0 [1, 2]) with _ | ⟨top, r1⟩
  · exact absurd hc (jsSortStable_ne_nil _ _ hne)
  rcases hg : jsSortStable growthDesc
      (compareQuery [exCompanyA, exCompanyB] [] [] 0 [1, 2]) with _ | ⟨tg, r2⟩
  · exact absurd hg (jsSortStable_ne_nil _ _ hne)
  have h : compareEndpoint [exCompanyA, exCompanyB] [] [] 0 (some [1, 2]) =
      CompareHttp.ok (compareQuery [exCompanyA, exCompanyB] [] [] 0 [1, 2])
        [top.name ++ " leads in market capitalization with $" ++
           toFixed1 (top.market_cap / 1000000000) ++ "B",
         tg.name ++ " shows highest growth rate at " ++
           fmtGrowthRate tg.growth_rate ++ "%",
         "Overall market sentiment is " ++ sentimentLabel (meanSentiment
           (compareQuery [exCompanyA, exCompanyB] [] [] 0 [1, 2]))] := by
    simp only [compareEndpoint]
    rw [if_neg (by decide), generateComparisonInsights_eq hc hg]
  exact (C5_compare_rows_per_company_averages _ _ _ _ _ _ _ h).2
    (compareRowFor exCompanyA [] [] 0) (by rw [hR]; exact List.mem_cons_self _ _)

def exTieA : CompareRow := ⟨1, "Alpha", "AL", 3000000000, none, none, none⟩

def exTieB : CompareRow := ⟨2, "Beta", "BE", 3000000000, none, none, none⟩

def exDistA : CompareRow := ⟨1, "Alpha", "AL", 5000000000, none, some 10, none⟩

def exDistB : CompareRow := ⟨2, "Beta", "BE", 2000000000, none, some 3, none⟩

/--
Counterexample to claim C6 as stated: two rows with equal market caps; the
stable sort keeps whichever comes first, so the first insight names Alpha for
one input order and Beta for the permuted order — the generator is not
order-independent on ties (and on the empty array it throws instead of
producing three strings).
-/
theorem C6_order_dependence_counterexample :
    [exTieA, exTieB].Perm [exTieB, exTieA] ∧
    generateComparisonInsights [exTieA, exTieB] ≠
      generateComparisonInsights [exTieB, exTieA] := by
  constructor
  · exact List.Perm.swap exTieB exTieA []
  · with_unfolding_all decide

theorem growthDesc_key_iff {x y : CompareRow} {gx gy : ℚ}
    (hx : x.growth_rate = some gx) (hy : y.growth_rate = some gy) :
    (growthDesc x y = true) ↔ gx < gy := by
  rw [growthDesc, hy, hx]
  show (jsCmpPositive (some (gy - gx)) = true) ↔ gx < gy
  simp [jsCmpPositive, sub_pos]

/--
Claim C6, amended: generateComparisonInsights is a pure function of its input
array, and it is order-independent on the inputs where its sorts have a unique
outcome: for every non-empty array whose market caps are pairwise distinct and
whose growth rates are all present and pairwise distinct, every permutation of
the array yields the same ordered sequence of exactly three strings.  (With a
tied market cap the stable sort makes the named leader depend on input order,
and on the empty array the generator throws.)
-/
theorem C6_amended_insights_order_independent (l1 l2 : List CompareRow)
    (hne : l1 ≠ [])
    (hcap : l1.Pairwise (fun a b => a.market_cap ≠ b.market_cap))
    (hgsome : ∀ c ∈ l1, c.growth_rate ≠ none)
    (hgdist : l1.Pairwise (fun a b => a.growth_rate ≠ b.growth_rate))
    (hperm : l1.Perm l2) :
    generateComparisonInsights l1 = generateComparisonInsights l2 ∧
    ∃ s1 s2 s3, generateComparisonInsights l1 = some [s1, s2, s3] := by
  -- market-cap sort: identical on both lists
  have hsortPerm1 := jsSortStable_perm marketCapDesc l1
  have hsortPerm2 := jsSortStable_perm marketCapDesc l2
  have hdesc1 := jsSortStable_pairwise (fun c : CompareRow => c.market_cap)
    marketCapDesc l1 (fun x _ y _ => marketCapDesc_iff x y)
  have hdesc2 := jsSortStable_pairwise (fun c : CompareRow => c.market_cap)
    marketCapDesc l2 (fun x _ y _ => marketCapDesc_iff x y)
  have hcapSym : ∀ {x y : CompareRow},
      x.market_cap ≠ y.market_cap → y.market_cap ≠ x.market_cap :=
    fun h => Ne.symm h
  have hcapS1 : (jsSortStable marketCapDesc l1).Pairwise
      (fun a b => a.market_cap ≠ b.market_cap) :=
    (List.Perm.pairwise_iff hcapSym hsortPerm1).mpr hcap
  have hcapS2 : (jsSortStable marketCapDesc l2).Pairwise
      (fun a b => a.market_cap ≠ b.market_cap) :=
    (List.Perm.pairwise_iff hcapSym hsortPerm2).mpr
      ((List.Perm.pairwise_iff hcapSym hperm).mp hcap)
  have hcapEq : jsSortStable marketCapDesc l1 = jsSortStable marketCapDesc l2 :=
    eq_of_perm_of_strict_desc (fun c : CompareRow => c.market_cap) _ _
      (hsortPerm1.trans (hperm.trans hsortPerm2.symm))
      (pairwise_strict_of_distinct _ _ hdesc1 hcapS1)
      (pairwise_strict_of_distinct _ _ hdesc2 hcapS2)
  -- growth sort: identical on both lists
  have hgsome2 : ∀ c ∈ l2, c.growth_rate ≠ none :=
    fun c hc => hgsome c (hperm.mem_iff.mpr hc)
  have hgIff : ∀ (l : List CompareRow), (∀ c ∈ l, c.growth_rate ≠ none) →
      ∀ x ∈ l, ∀ y ∈ l,
        (growthDesc x y = true) ↔
          (fun c : CompareRow => c.growth_rate.getD 0) x <
            (fun c : CompareRow => c.growth_rate.getD 0) y := by
    intro l hl x hx y hy
    rcases Option.ne_none_iff_exists'.mp (hl x hx) with ⟨gx, hgx⟩
    rcases Option.ne_none_iff_exists'.mp (hl y hy) with ⟨gy, hgy⟩
    rw [growthDesc_key_iff hgx hgy]
    simp [hgx, hgy]
  have hgdesc1 := jsSortStable_pairwise (fun c : CompareRow => c.growth_rate.getD 0)
    growthDesc l1 (hgIff l1 hgsome)
  have hgdesc2 := jsSortStable_pairwise (fun c : CompareRow => c.growth_rate.getD 0)
    growthDesc l2 (hgIff l2 hgsome2)
  have hgkey : l1.Pairwise (fun a b => a.growth_rate.getD 0 ≠ b.growth_rate.getD 0) := by
    apply hgdist.imp_of_mem
    intro a b ha hb hne'
    rcases Option.ne_none_iff_exists'.mp (hgsome a ha) with ⟨ga, hga⟩
    rcases Option.ne_none_iff_exists'.mp (hgsome b hb) with ⟨gb, hgb⟩
    rw [hga, hgb]
    intro heq
    exact hne' (by rw [hga, hgb]; simpa using heq)
  have hgSym : ∀ {x y : CompareRow},
      x.growth_rate.getD 0 ≠ y.growth_rate.getD 0 →
      y.growth_rate.getD 0 ≠ x.growth_rate.getD 0 := fun h => Ne.symm h
  have hgS1 : (jsSortStable growthDesc l1).Pairwise
      (fun a b => a.growth_rate.getD 0 ≠ b.growth_rate.getD 0) :=
    (List.Perm.pairwise_iff hgSym (jsSortStable_perm growthDesc l1)).mpr hgkey
  have hgS2 : (jsSortStable growthDesc l2).Pairwise
      (fun a b => a.growth_rate.getD 0 ≠ b.growth_rate.getD 0) :=
    (List.Perm.pairwise_iff hgSym (jsSortStable_perm growthDesc l2)).mpr
      ((List.Perm.pairwise_iff hgSym hperm).mp hgkey)
  have hgEq : jsSortStable growthDesc l1 = jsSortStable growthDesc l2 :=
    eq_of_perm_of_strict_desc (fun c : CompareRow => c.growth_rate.getD 0) _ _
      ((jsSortStable_perm growthDesc l1).trans
        (hperm.trans (jsSortStable_perm growthDesc l2).symm))
      (pairwise_strict_of_distinct _ _ hgdesc1 hgS1)
      (pairwise_strict_of_distinct _ _ hgdesc2 hgS2)
  -- mean sentiment: permutation-invariant
  have hmean : meanSentiment l1 = meanSentiment l2 := by
    rw [meanSentiment, meanSentiment,
      (hperm.map (fun c => c.avg_sentiment.getD 0)).sum_eq, hperm.length_eq]
  rcases hc1 : jsSortStable marketCapDesc l1 with _ | ⟨top, r1⟩
  · exact absurd hc1 (jsSortStable_ne_nil _ _ hne)
  rcases hg1 : jsSortStable growthDesc l1 with _ | ⟨tg, r2⟩
  · exact absurd hg1 (jsSortStable_ne_nil _ _ hne)
  have hc2 : jsSortStable marketCapDesc l2 = top :: r1 := by rw [← hcapEq]; exact hc1
  have hg2 : jsSortStable growthDesc l2 = tg :: r2 := by rw [← hgEq]; exact hg1
  have e1 := generateComparisonInsights_eq hc1 hg1
  have e2 := generateComparisonInsights_eq hc2 hg2
  constructor
  · rw [e1, e2, hmean]
  · exact ⟨_, _, _, e1⟩

/--
Witness for the amended C6 at a concrete input: distinct market caps and
distinct present growth rates; the permuted pair yields identical insights.
-/
theorem C6_amended_insights_order_independent_witness :
    generateComparisonInsights [exDistA, exDistB] =
      generateComparisonInsights [exDistB, exDistA] ∧
    ∃ s1 s2 s3, generateComparisonInsights [exDistA, exDistB] = some [s1, s2, s3] :=
  C6_amended_insights_order_independent [exDistA, exDistB] [exDistB, exDistA]
    (List.cons_ne_nil _ _)
    (by with_unfolding_all decide)
    (by with_unfolding_all decide)
    (by with_unfolding_all decide)
    (List.Perm.swap exDistB exDistA [])

/--
Claim C7: for every non-empty input the first insight string names a company
of maximal market cap, rendered with its market cap divided by 1e9 and
formatted with one decimal place; in particular for market caps 5e9 and 2e9
the string names Alpha and contains the text 5.0 prefixed by the dollar sign
and suffixed by B.
-/
theorem C7_market_cap_leader :
    (∀ l : List CompareRow, l ≠ [] → ∃ c ∈ l,
      (∀ d ∈ l, d.market_cap ≤ c.market_cap) ∧
      ∃ rest, generateComparisonInsights l =
        some ((c.name ++ " leads in market capitalization with $" ++
          toFixed1 (c.market_cap / 1000000000) ++ "B") :: rest)) ∧
    (generateComparisonInsights [exDistA, exDistB] =
      some ["Alpha leads in market capitalization with $5.0B",
            "Alpha shows highest growth rate at 10.0%",
            "Overall market sentiment is negative"] ∧
     ∃ pre post, "Alpha leads in market capitalization with $5.0B" =
       pre ++ "$5.0B" ++ post) := by
  constructor
  · intro l hne
    rcases hc : jsSortStable marketCapDesc l with _ | ⟨top, r1⟩
    · exact absurd hc (jsSortStable_ne_nil _ _ hne)
    rcases hg : jsSortStable growthDesc l with _ | ⟨tg, r2⟩
    · exact absurd hg (jsSortStable_ne_nil _ _ hne)
    have hmem : top ∈ l := (jsSortStable_perm marketCapDesc l).subset
      (by rw [hc]; exact List.mem_cons_self top r1)
    have hpw := jsSortStable_pairwise (fun c : CompareRow => c.market_cap)
      marketCapDesc l (fun x _ y _ => marketCapDesc_iff x y)
    rw [hc] at hpw
    have hmax : ∀ d ∈ l, d.market_cap ≤ top.market_cap := by
      intro d hd
      have hd' : d ∈ top :: r1 := by
        rw [← hc]
        exact (jsSortStable_perm marketCapDesc l).symm.subset hd
      rcases List.mem_cons.mp hd' with rfl | hdr
      · exact le_refl _
      · exact (List.pairwise_cons.mp hpw).1 d hdr
    exact ⟨top, hmem, hmax, _, generateComparisonInsights_eq hc hg⟩
  · constructor
    · with_unfolding_all decide
    · exact ⟨"Alpha leads in market capitalization with ", "", by decide⟩

/--
Witness for C7 at the concrete two-company input of the claim (market caps
5e9 and 2e9).
-/
theorem C7_market_cap_leader_witness :
    ∃ c ∈ [exDistA, exDistB],
      (∀ d ∈ [exDistA, exDistB], d.market_cap ≤ c.market_cap) ∧
      ∃ rest, generateComparisonInsights [exDistA, exDistB] =
        some ((c.name ++ " leads in market capitalization with $" ++
          toFixed1 (c.market_cap / 1000000000) ++ "B") :: rest) :=
  C7_market_cap_leader.1 [exDistA, exDistB] (List.cons_ne_nil _ _)

/--
Claim C8: for every non-empty input the third insight string classifies the
mean of the companies' avg_sentiment values (a missing value counting as
zero) as positive above 0.6, neutral above 0.4 and at most 0.6, and negative
at or below 0.4.
-/
theorem C8_sentiment_classification (l : List CompareRow) (hne : l ≠ []) :
    ∃ s1 s2 label,
      generateComparisonInsights l =
        some [s1, s2, "Overall market sentiment is " ++ label] ∧
      (0.6 < meanSentiment l → label = "positive") ∧
      (0.4 < meanSentiment l ∧ meanSentiment l ≤ 0.6 → label = "neutral") ∧
      (meanSentiment l ≤ 0.4 → label = "negative") := by
  rcases hc : jsSortStable marketCapDesc l with _ | ⟨top, r1⟩
  · exact absurd hc (jsSortStable_ne_nil _ _ hne)
  rcases hg : jsSortStable growthDesc l with _ | ⟨tg, r2⟩
  · exact absurd hg (jsSortStable_ne_nil _ _ hne)
  refine ⟨_, _, sentimentLabel (meanSentiment l),
    generateComparisonInsights_eq hc hg, ?_, ?_, ?_⟩
  · intro hgt
    rw [sentimentLabel, if_pos hgt]
  · rintro ⟨hgt, hle⟩
    rw [sentimentLabel, if_neg (not_lt.mpr hle), if_pos hgt]
  · intro hle
    rw [sentimentLabel,
      if_neg (not_lt.mpr (le_trans hle (by norm_num))),
      if_neg (not_lt.mpr hle)]

/-- Witness for C8 at a concrete non-empty input. -/
theorem C8_sentiment_classification_witness :
    ∃ s1 s2 label,
      generateComparisonInsights [exDistA, exDistB] =
        some [s1, s2, "Overall market sentiment is " ++ label] ∧
      (0.6 < meanSentiment [exDistA, exDistB] → label = "positive") ∧
      (0.4 < meanSentiment [exDistA, exDistB] ∧
        meanSentiment [exDistA, exDistB] ≤ 0.6 → label = "neutral") ∧
      (meanSentiment [exDistA, exDistB] ≤ 0.4 → label = "negative") :=
  C8_sentiment_classification [exDistA, exDistB] (List.cons_ne_nil _ _)

/--
Claim C9: when the company selected as highest-growth has no growth-rate
value, the generator still returns (no error is raised); the second insight
string is produced with the missing rate rendered as the text undefined.
-/
theorem C9_missing_growth_no_error (l : List CompareRow) (topG : CompareRow)
    (rest : List CompareRow)
    (hg : jsSortStable growthDesc l = topG :: rest)
    (hnone : topG.growth_rate = none) :
    ∃ s1 s3, generateComparisonInsights l =
      some [s1, topG.name ++ " shows highest growth rate at " ++
        fmtGrowthRate topG.growth_rate ++ "%", s3] ∧
      fmtGrowthRate topG.growth_rate = "undefined" := by
  have hne : l ≠ [] := by
    intro h0
    rw [h0] at hg
    cases hg
  rcases hc : jsSortStable marketCapDesc l with _ | ⟨top, r1⟩
  · exact absurd hc (jsSortStable_ne_nil _ _ hne)
  exact ⟨_, _, generateComparisonInsights_eq hc hg, by rw [hnone]; rfl⟩

/-- Witness for C9 at a concrete input whose selected company has no growth rate. -/
theorem C9_missing_growth_no_error_witness :
    ∃ s1 s3, generateComparisonInsights [exTieA, exTieB] =
      some [s1, exTieA.name ++ " shows highest growth rate at " ++
        fmtGrowthRate exTieA.growth_rate ++ "%", s3] ∧
      fmtGrowthRate exTieA.growth_rate = "undefined" :=
  C9_missing_growth_no_error [exTieA, exTieB] exTieA [exTieB] rfl rfl

/--
Claim C10: a compare request with at least two ids none of which matches an
existing company produces an empty row set; the insight generator then throws
(dereferencing the first element of an empty sorted array), the error is
caught by the endpoint's catch branch, and the response is HTTP 500 rather
than an empty companies/insights payload.
-/
theorem C10_no_matching_companies_500 (companies : List Company)
    (metrics : List FinancialMetric) (sentis : List NewsSentiment) (now : Int)
    (ids : List Nat) (h2 : 2 ≤ ids.length)
    (hnone : ∀ c ∈ companies, c.id ∉ ids) :
    compareEndpoint companies metrics sentis now (some ids) =
      CompareHttp.serverError ∧
    compareStatus (compareEndpoint companies metrics sentis now (some ids)) = 500 := by
  have hq : compareQuery companies metrics sentis now ids = [] := by
    rw [compareQuery]
    have hfil : companies.filter (fun c => decide (c.id ∈ ids)) = [] := by
      rw [List.filter_eq_nil_iff]
      intro c hc
      simp [hnone c hc]
    rw [hfil]
    rfl
  have hmain : compareEndpoint companies metrics sentis now (some ids) =
      CompareHttp.serverError := by
    simp only [compareEndpoint]
    rw [if_neg (not_lt.mpr h2), hq]
    rfl
  exact ⟨hmain, by rw [hmain]; rfl⟩

/-- Witness for C10: two ids, no matching company, concrete 500 outcome. -/
theorem C10_no_matching_companies_500_witness :
    compareEndpoint [exCompanyA, exCompanyB] [] [] 0 (some [7, 8]) =
      CompareHttp.serverError ∧
    compareStatus (compareEndpoint [exCompanyA, exCompanyB] [] [] 0 (some [7, 8])) =
      500 :=
  C10_no_matching_companies_500 [exCompanyA, exCompanyB] [] [] 0 [7, 8]
    (by decide) (by decide)
